import Mathlib

set_option maxRecDepth 10000

/- Shallow embedding of the microarch_lab_conversions repository:
   the arbitrary-base conversion engine of src/core/conversion_engine.py and
   the adaptive learning pathway of src/educational/learning_pathways.py.
   Numeric values flow through the engine as a decimal intermediate; the
   Python float arithmetic is idealized as exact rational arithmetic (the
   precision-bounded regime in which the specified properties are stated),
   and the transcendental complexity heuristic is idealized over the reals. -/

/-- Error taxonomy of the engine: `invalidBase` is the `BaseConversionError`
raised by `_validate_bases` for a base outside [2,36], and `digitOutOfRange`
is the `ValueError` Python's `int(digit, base)` raises when a character is not
a digit strictly below the base (the spec's `DigitOutOfRangeError`). -/
inductive ConvError where
  | invalidBase (source_base target_base : Nat)
  | digitOutOfRange (c : Char) (base : Nat)
deriving DecidableEq

/-- The 36-character digit alphabet `digits` used by `_from_decimal`. -/
def digitsAlphabet : List Char := "0123456789ABCDEFGHIJKLMNOPQRSTUVWXYZ".data

/-- Indexing `digits[d]`; every reachable index in the code is below 36. -/
def digitChar (d : Nat) : Char := digitsAlphabet.getD d '?'

/-- Numeric value of one character as Python's `int(c, base)` reads it:
`0`-`9` then letters, case-insensitively; `none` for a non-digit character. -/
def charDigitValue (c : Char) : Option Nat :=
  if '0' ≤ c ∧ c ≤ '9' then some (c.toNat - '0'.toNat)
  else if 'A' ≤ c ∧ c ≤ 'Z' then some (c.toNat - 'A'.toNat + 10)
  else if 'a' ≤ c ∧ c ≤ 'z' then some (c.toNat - 'a'.toNat + 10)
  else none

/-- Python's `int(c, base)` on one character: its digit value when that value
is below the base, an error otherwise. -/
def intDigit (base : Nat) (c : Char) : Except ConvError Nat :=
  match charDigitValue c with
  | some d => if d < base then .ok d else .error (.digitOutOfRange c base)
  | none => .error (.digitOutOfRange c base)

/-- A character is a valid digit for a base when it has a digit value and that
value is strictly below the base. -/
def validDigit (base : Nat) (c : Char) : Prop :=
  ∃ d, charDigitValue c = some d ∧ d < base

/-- Python's `str.split` on the dot character, acting on the character list. -/
def splitDot : List Char → List (List Char)
  | [] => [[]]
  | c :: rest =>
    if c = '.' then [] :: splitDot rest
    else
      match splitDot rest with
      | [] => [[c]]
      | p :: ps => (c :: p) :: ps

/-- The sum `Σ int(digit, base) * base ** power` over
`enumerate(reversed(integer_part))` in `_to_decimal`; the digit list is given
least-significant first and `pow` is the starting power. -/
def parseDigitsLSF (base : Nat) : List Char → Nat → Except ConvError Nat
  | [], _ => .ok 0
  | c :: cs, pow =>
    match intDigit base c with
    | .error e => .error e
    | .ok d =>
      match parseDigitsLSF base cs (pow + 1) with
      | .error e => .error e
      | .ok rest => .ok (d * base ^ pow + rest)

/-- The sum `Σ int(digit, base) * base ** -(power + 1)` over
`enumerate(fractional_part)` in `_to_decimal`, scanned left to right. -/
def parseFracDigits (base : Nat) : List Char → Nat → Except ConvError ℚ
  | [], _ => .ok 0
  | c :: cs, pow =>
    match intDigit base c with
    | .error e => .error e
    | .ok d =>
      match parseFracDigits base cs (pow + 1) with
      | .error e => .error e
      | .ok rest => .ok ((d : ℚ) * ((base : ℚ) ^ (pow + 1))⁻¹ + rest)

/-- `CognitiveBaseConverter._to_decimal`: split the textual value on an
optional dot, read the integer part most-significant first and the fractional
part as negative powers of the base, and add the two contributions. -/
def CognitiveBaseConverter.to_decimal (strValue : String) (source_base : Nat) :
    Except ConvError ℚ :=
  let parts := splitDot strValue.data
  let integerPart := parts.headD []
  let fractionalPart := (parts.drop 1).headD []
  match parseDigitsLSF source_base integerPart.reverse 0 with
  | .error e => .error e
  | .ok integerDecimal =>
    match parseFracDigits source_base fractionalPart 0 with
    | .error e => .error e
    | .ok fractionalDecimal => .ok ((integerDecimal : ℚ) + fractionalDecimal)

/-- Python's `int()` on a number: truncation toward zero. -/
def pyInt (q : ℚ) : ℤ := if 0 ≤ q then ⌊q⌋ else -⌊-q⌋

/-- The integer-part rendering loop of `_from_decimal`: repeatedly take
`integer_part % target_base` as the next lower digit and floor-divide; the
`2 ≤ base` guard records the already-validated base and yields termination. -/
def intDigitsLoop (base n : Nat) : List Char :=
  if h : 0 < n ∧ 2 ≤ base then
    intDigitsLoop base (n / base) ++ [digitChar (n % base)]
  else []
termination_by n
decreasing_by exact Nat.div_lt_self h.1 h.2

/-- The fractional rendering loop of `_from_decimal`: while the remainder is
positive and fewer than `precision` digits were produced, multiply by the
base, emit the integer digit and subtract it; the fuel is the precision 10. -/
def fracDigitsLoop (base : Nat) : Nat → ℚ → List Char
  | 0, _ => []
  | fuel + 1, f =>
    if 0 < f then
      let f2 := f * (base : ℚ)
      let d := pyInt f2
      digitChar d.toNat :: fracDigitsLoop base fuel (f2 - (d : ℚ))
    else []

/-- `CognitiveBaseConverter._from_decimal`: render the truncated integer part
(an integer part of 0 renders as the single digit 0), then up to ten
fractional digits joined after a dot when any were produced. -/
def CognitiveBaseConverter.from_decimal (value : ℚ) (target_base : Nat) : String :=
  let integerPart := pyInt value
  let fractionalPart := value - (integerPart : ℚ)
  let integerConversion := intDigitsLoop target_base integerPart.toNat
  let fractionalConversion := fracDigitsLoop target_base 10 fractionalPart
  let intChars := if integerConversion = [] then ['0'] else integerConversion
  String.mk (if fractionalConversion = [] then intChars
             else intChars ++ '.' :: fractionalConversion)

/-- `CognitiveBaseConverter._validate_bases`: both bases must lie in [2,36]. -/
def CognitiveBaseConverter.validate_bases (source_base target_base : Nat) :
    Except ConvError Unit :=
  if 2 ≤ source_base ∧ source_base ≤ 36 ∧ 2 ≤ target_base ∧ target_base ≤ 36 then
    .ok ()
  else .error (.invalidBase source_base target_base)

/-- `ConversionMode` of the engine. -/
inductive ConversionMode where
  | STANDARD
  | EDUCATIONAL
  | PERFORMANCE
deriving DecidableEq

/-- The conversion-metadata dict built by `convert`. -/
structure ConversionMetadata where
  source_value : String
  source_base : Nat
  target_base : Nat
  decimal_intermediate : ℚ
  target_representation : String
  cognitive_complexity : ℝ

/-- The converter object: operation mode, bit-width setting, and the mutable
conversion history list. -/
structure CognitiveBaseConverter where
  mode : ConversionMode
  max_bit_width : Nat
  conversion_history : List ConversionMetadata

/-- `CognitiveBaseConverter._calculate_complexity`:
`|source - target| * (1 + ln(|value| + 1)) / ln(max(source, target))`,
capped at 10. -/
noncomputable def CognitiveBaseConverter.calculate_complexity
    (source_base target_base : Nat) (value : ℝ) : ℝ :=
  let baseDifference : ℝ := |(source_base : ℝ) - (target_base : ℝ)|
  let valueMagnitude : ℝ := |value|
  min (baseDifference * (1 + Real.log (valueMagnitude + 1)) /
    Real.log ((max source_base target_base : Nat) : ℝ)) 10

/-- `CognitiveBaseConverter.convert`: validate the bases, go through the
decimal intermediate, render the target representation, build the metadata
dict, and append it to `conversion_history` unless in PERFORMANCE mode.
The state passing makes the Python mutation of `self` explicit. -/
noncomputable def CognitiveBaseConverter.convert (self : CognitiveBaseConverter)
    (value : String) (source_base target_base : Nat) :
    Except ConvError (ConversionMetadata × CognitiveBaseConverter) :=
  match CognitiveBaseConverter.validate_bases source_base target_base with
  | .error e => .error e
  | .ok _ =>
    match CognitiveBaseConverter.to_decimal value source_base with
    | .error e => .error e
    | .ok decimalValue =>
      let conversionMetadata : ConversionMetadata :=
        { source_value := value
          source_base := source_base
          target_base := target_base
          decimal_intermediate := decimalValue
          target_representation :=
            CognitiveBaseConverter.from_decimal decimalValue target_base
          cognitive_complexity :=
            CognitiveBaseConverter.calculate_complexity source_base target_base
              (decimalValue : ℝ) }
      let self2 :=
        if self.mode = ConversionMode.EDUCATIONAL ∨ self.mode = ConversionMode.STANDARD
        then { self with
                 conversion_history := self.conversion_history ++ [conversionMetadata] }
        else self
      .ok (conversionMetadata, self2)

/-- Cognitive complexity levels of the adaptive learner. -/
inductive DifficultyLevel where
  | BEGINNER
  | INTERMEDIATE
  | ADVANCED
  | EXPERT
deriving DecidableEq

/-- The `.name` attribute of a `DifficultyLevel` member. -/
def DifficultyLevel.name : DifficultyLevel → String
  | .BEGINNER => "BEGINNER"
  | .INTERMEDIATE => "INTERMEDIATE"
  | .ADVANCED => "ADVANCED"
  | .EXPERT => "EXPERT"

/-- The challenge dict built by `generate_challenge`. -/
structure Challenge where
  source_base : Nat
  target_base : Nat
  value : ℚ
  difficulty_level : String
  cognitive_complexity : ℝ

/-- A submitted challenge-result dict. Python dicts may lack keys, so each of
the fields `submit_challenge_result` requires is an `Option`; `update_profile`
reads the time and error fields with `.get(key, 0)` defaults. -/
structure ChallengeResult where
  solving_time : Option ℚ
  error_rate : Option ℚ
  challenge : Option Challenge

/-- A learner's cognitive state: current difficulty plus the history lists.
The write-only `cognitive_profile` dict is never read or written by any
operation and is omitted. -/
structure LearningState where
  difficulty_level : DifficultyLevel
  completed_challenges : List ChallengeResult
  time_to_solve : List ℚ
  error_rates : List ℚ

/-- `LearningState._increase_difficulty`: the difficulty mapping, with EXPERT
the `.get` default for the key absent from the dict. -/
def DifficultyLevel.increase_difficulty : DifficultyLevel → DifficultyLevel
  | .BEGINNER => .INTERMEDIATE
  | .INTERMEDIATE => .ADVANCED
  | .ADVANCED => .EXPERT
  | .EXPERT => .EXPERT

/-- `LearningState._decrease_difficulty`: the downward mapping, with BEGINNER
the `.get` default. -/
def DifficultyLevel.decrease_difficulty : DifficultyLevel → DifficultyLevel
  | .EXPERT => .ADVANCED
  | .ADVANCED => .INTERMEDIATE
  | .INTERMEDIATE => .BEGINNER
  | .BEGINNER => .BEGINNER

/-- `LearningState._adjust_difficulty`: do nothing on empty tracking lists,
otherwise inspect the most recent solving time and error rate; fast accurate
work advances one level, poor work resets to BEGINNER and clears both lists. -/
def LearningState.adjust_difficulty (s : LearningState) : LearningState :=
  if s.time_to_solve = [] ∨ s.error_rates = [] then s
  else
    let currentSolvingTime := s.time_to_solve.getLast?.getD 0
    let currentErrorRate := s.error_rates.getLast?.getD 0
    if currentSolvingTime < 30 ∧ currentErrorRate < 1/10 then
      { s with difficulty_level := s.difficulty_level.increase_difficulty }
    else if currentSolvingTime > 120 ∨ currentErrorRate > 3/10 then
      { s with difficulty_level := .BEGINNER, time_to_solve := [], error_rates := [] }
    else s

/-- `LearningState.update_profile`: append the result and its solving time and
error rate (with `.get` default 0) to the history lists, then adjust. -/
def LearningState.update_profile (s : LearningState)
    (challenge_result : ChallengeResult) : LearningState :=
  LearningState.adjust_difficulty
    { s with
        completed_challenges := s.completed_challenges ++ [challenge_result]
        time_to_solve := s.time_to_solve ++ [challenge_result.solving_time.getD 0]
        error_rates := s.error_rates ++ [challenge_result.error_rate.getD 0] }

/-- The adaptive pathway object wrapping a learning state. -/
structure AdaptiveLearningPathway where
  learning_state : LearningState
  min_base : Nat
  max_base : Nat

/-- `AdaptiveLearningPathway._calculate_challenge_complexity`: textually the
same heuristic as the engine's `_calculate_complexity`. -/
noncomputable def AdaptiveLearningPathway.calculate_challenge_complexity
    (source_base target_base : Nat) (value : ℝ) : ℝ :=
  let baseDifference : ℝ := |(source_base : ℝ) - (target_base : ℝ)|
  let valueMagnitude : ℝ := |value|
  min (baseDifference * (1 + Real.log (valueMagnitude + 1)) /
    Real.log ((max source_base target_base : Nat) : ℝ)) 10

/-- The per-level base range `base_complexity_map` of `generate_challenge`. -/
def baseComplexityMap : DifficultyLevel → Nat × Nat
  | .BEGINNER => (2, 10)
  | .INTERMEDIATE => (2, 16)
  | .ADVANCED => (2, 36)
  | .EXPERT => (2, 36)

/-- The per-level value range `value_complexity` of `generate_challenge`. -/
def valueComplexityMap : DifficultyLevel → Nat × Nat
  | .BEGINNER => (0, 100)
  | .INTERMEDIATE => (0, 1000)
  | .ADVANCED => (0, 10000)
  | .EXPERT => (0, 1000000)

/-- Round half to even, as Python's `round` breaks ties. -/
def roundHalfToEven (x : ℚ) : ℤ :=
  let f := ⌊x⌋
  let r := x - (f : ℚ)
  if r < 1/2 then f
  else if 1/2 < r then f + 1
  else if f % 2 = 0 then f else f + 1

/-- Python's `round(x, 3)`: round to the nearest multiple of 1/1000. -/
def pyRound3 (x : ℚ) : ℚ := (roundHalfToEven (x * 1000) : ℚ) / 1000

/-- The outcomes of the random calls `generate_challenge` makes, passed in
explicitly: the two `randint` base draws, the `random.random()` outcome tested
against 0.3, the `randint` value draw, and the `random.random()` outcome that
is rounded into the fractional part. -/
structure RandomDraws where
  sourceBaseDraw : Nat
  targetBaseDraw : Nat
  fractionalCoin : ℚ
  integerDraw : Nat
  fractionalDraw : ℚ

/-- The contract of Python's random source for one `generate_challenge` call
at a given difficulty level: `randint(a, b)` lands in [a,b] for the level's
base and value ranges, and `random.random()` lands in [0,1). -/
def RandomDraws.inRange (level : DifficultyLevel) (d : RandomDraws) : Prop :=
  (baseComplexityMap level).1 ≤ d.sourceBaseDraw ∧
  d.sourceBaseDraw ≤ (baseComplexityMap level).2 ∧
  (baseComplexityMap level).1 ≤ d.targetBaseDraw ∧
  d.targetBaseDraw ≤ (baseComplexityMap level).2 ∧
  0 ≤ d.fractionalCoin ∧ d.fractionalCoin < 1 ∧
  (valueComplexityMap level).1 ≤ d.integerDraw ∧
  d.integerDraw ≤ (valueComplexityMap level).2 ∧
  0 ≤ d.fractionalDraw ∧ d.fractionalDraw < 1

/-- `AdaptiveLearningPathway.generate_challenge`: pick bases from the level's
base range, possibly add a 3-decimal fractional part at ADVANCED or EXPERT,
and annotate with the complexity heuristic. -/
noncomputable def AdaptiveLearningPathway.generate_challenge
    (self : AdaptiveLearningPathway) (draws : RandomDraws) : Challenge :=
  let level := self.learning_state.difficulty_level
  let source_base := draws.sourceBaseDraw
  let target_base := draws.targetBaseDraw
  let isFractional :=
    (level = DifficultyLevel.ADVANCED ∨ level = DifficultyLevel.EXPERT) ∧
      draws.fractionalCoin < 3/10
  let value : ℚ :=
    if isFractional then (draws.integerDraw : ℚ) + pyRound3 draws.fractionalDraw
    else (draws.integerDraw : ℚ)
  { source_base := source_base
    target_base := target_base
    value := value
    difficulty_level := level.name
    cognitive_complexity :=
      AdaptiveLearningPathway.calculate_challenge_complexity source_base target_base
        (value : ℝ) }

/-- `AdaptiveLearningPathway.submit_challenge_result`: raise `ValueError` when
a required key is missing, else delegate to `update_profile`. The returned
pair carries the possible exception together with the object state afterward:
the `raise` happens before any mutation, so the error case returns the input
unchanged. -/
def AdaptiveLearningPathway.submit_challenge_result
    (self : AdaptiveLearningPathway) (result : ChallengeResult) :
    Option String × AdaptiveLearningPathway :=
  if result.solving_time.isSome ∧ result.error_rate.isSome ∧ result.challenge.isSome
  then
    (none,
      { self with learning_state := self.learning_state.update_profile result })
  else (some "Invalid challenge result structure", self)

/-- The grading record `evaluate_answer` returns. -/
structure EvalResult where
  is_correct : Bool
  error_rate : ℚ
deriving DecidableEq

/-- Modelled from the spec: `convert_number` is imported from
`core.conversion_engine` by the repository's tests but is absent from the
source file; per the spec it is the conversion of a textual value between two
bases, yielding the rendered target representation. -/
def convert_number (value : String) (source_base target_base : Nat) :
    Except ConvError String :=
  match CognitiveBaseConverter.validate_bases source_base target_base with
  | .error e => .error e
  | .ok _ =>
    match CognitiveBaseConverter.to_decimal value source_base with
    | .error e => .error e
    | .ok decimalValue =>
      .ok (CognitiveBaseConverter.from_decimal decimalValue target_base)

/-- Modelled from the spec: `AdaptiveLearningPathway.evaluate_answer` is
called by the repository's tests but is absent from the source file; per spec
section 4.5 it computes the correct answer with the converter on the
challenge's value and bases and grades by exact case-sensitive string
equality, with error rate 0 on a match and 1 otherwise. -/
def AdaptiveLearningPathway.evaluate_answer (value : String)
    (source_base target_base : Nat) (user_answer : String) :
    Except ConvError EvalResult :=
  match convert_number value source_base target_base with
  | .error e => .error e
  | .ok correct_answer =>
    .ok { is_correct := user_answer = correct_answer
          error_rate := if user_answer = correct_answer then 0 else 1 }

/-- Python's `str` on a nonnegative integer is its decimal numeral, which is
exactly the engine's own base-10 rendering of that integer. -/
def decString (v : Nat) : String := CognitiveBaseConverter.from_decimal (v : ℚ) 10

/-- A concrete EXPERT pathway used by the concrete instantiations below. -/
def expertPathway : AdaptiveLearningPathway :=
  ⟨⟨DifficultyLevel.EXPERT, [], [], []⟩, 2, 36⟩

/-- In-contract EXPERT draws whose fractional coin suppresses the fraction. -/
def expertDraws : RandomDraws := ⟨2, 36, 1/2, 1000, 1/2⟩

/-- In-contract EXPERT draws whose fractional draw 0.9996 rounds to 1. -/
def carryDraws : RandomDraws := ⟨2, 2, 1/10, 1000000, 2499/2500⟩

theorem calculate_complexity_mem_Icc (s t : Nat) (h2 : 2 ≤ max s t) (v : ℝ) :
    0 ≤ CognitiveBaseConverter.calculate_complexity s t v ∧
      CognitiveBaseConverter.calculate_complexity s t v ≤ 10 := by
  unfold CognitiveBaseConverter.calculate_complexity
  have hcast : (1 : ℝ) < ((max s t : Nat) : ℝ) := by exact_mod_cast h2
  have hlog : 0 < Real.log ((max s t : Nat) : ℝ) := Real.log_pos hcast
  have habs : (1 : ℝ) ≤ |v| + 1 := by
    have := abs_nonneg v
    linarith
  have hnum : 0 ≤ |(s : ℝ) - (t : ℝ)| * (1 + Real.log (|v| + 1)) := by
    have hl := Real.log_nonneg habs
    have := abs_nonneg ((s : ℝ) - (t : ℝ))
    nlinarith
  refine ⟨le_min (div_nonneg hnum hlog.le) (by norm_num), min_le_right _ _⟩

/-- Claim C3 counterexample: at value 0 with the distant bases 2 and 36 the
complexity score is not 0, contradicting the claim that a zero value always
scores zero complexity. -/
theorem claim_C3_counterexample :
    CognitiveBaseConverter.calculate_complexity 2 36 0 ≠ 0 := by
  unfold CognitiveBaseConverter.calculate_complexity
  have hb : (0 : ℝ) < |((2 : ℕ) : ℝ) - ((36 : ℕ) : ℝ)| := by
    rw [abs_sub_comm, abs_of_nonneg] <;> norm_num
  have hv : (0 : ℝ) < 1 + Real.log (|(0 : ℝ)| + 1) := by simp
  have hlog : 0 < Real.log (((max 2 36 : ℕ)) : ℝ) := Real.log_pos (by norm_num)
  exact (lt_min (div_pos (mul_pos hb hv) hlog) (by norm_num)).ne'

/-- Claim C3 (amended): for bases in [2,36] the complexity score lies in
[0,10] and is 0 whenever the bases coincide; at value 0 the score is
min(|s-t| / ln(max s t), 10), which is not 0 for distinct bases. -/
theorem claim_C3 (s t : Nat) (v : ℝ) (hs2 : 2 ≤ s) (hs36 : s ≤ 36)
    (ht2 : 2 ≤ t) (ht36 : t ≤ 36) :
    (0 ≤ CognitiveBaseConverter.calculate_complexity s t v ∧
      CognitiveBaseConverter.calculate_complexity s t v ≤ 10) ∧
    (s = t → CognitiveBaseConverter.calculate_complexity s t v = 0) ∧
    (v = 0 → CognitiveBaseConverter.calculate_complexity s t v =
      min (|(s : ℝ) - (t : ℝ)| / Real.log ((max s t : Nat) : ℝ)) 10) := by
  refine ⟨calculate_complexity_mem_Icc s t (le_max_of_le_left hs2) v, ?_, ?_⟩
  · intro hst
    subst hst
    unfold CognitiveBaseConverter.calculate_complexity
    simp
  · intro hv
    subst hv
    unfold CognitiveBaseConverter.calculate_complexity
    simp

/-- Witness for claim C3 at the concrete triple (2, 36, 0). -/
theorem claim_C3_witness :
    0 ≤ CognitiveBaseConverter.calculate_complexity 2 36 0 ∧
      CognitiveBaseConverter.calculate_complexity 2 36 0 ≤ 10 :=
  (claim_C3 2 36 0 (by decide) (by decide) (by decide) (by decide)).1

/-- Claim C9: the engine's complexity calculation and the learning pathway's
challenge-complexity calculation agree on every input triple. -/
theorem claim_C9 (s t : Nat) (v : ℝ) :
    CognitiveBaseConverter.calculate_complexity s t v =
      AdaptiveLearningPathway.calculate_challenge_complexity s t v := rfl

/-- Claim C7: submission fails exactly when one of the required fields is
missing; on failure the pathway state is unchanged, and on success it is the
update of the learning state by the result. -/
theorem claim_C7 (p : AdaptiveLearningPathway) (r : ChallengeResult) :
    ((p.submit_challenge_result r).1.isSome ↔
      (r.solving_time = none ∨ r.error_rate = none ∨ r.challenge = none)) ∧
    ((p.submit_challenge_result r).1.isSome → (p.submit_challenge_result r).2 = p) ∧
    ((p.submit_challenge_result r).1 = none →
      (p.submit_challenge_result r).2 =
        { p with learning_state := p.learning_state.update_profile r }) := by
  obtain ⟨st, er, ch⟩ := r
  cases st <;> cases er <;> cases ch <;>
    simp [AdaptiveLearningPathway.submit_challenge_result]

/-- Claim C1: after an update with the submitted result's solving time and
error rate, the new difficulty is a function of the old level and that latest
pair alone: fast accurate work advances exactly one step with EXPERT a
ceiling, poor work resets to BEGINNER and empties both tracking lists, and
anything else leaves the level unchanged. -/
theorem claim_C1 (s : LearningState) (r : ChallengeResult) (st er : ℚ)
    (hst : r.solving_time = some st) (her : r.error_rate = some er) :
    ((s.update_profile r).difficulty_level =
      if st < 30 ∧ er < 1/10 then
        (match s.difficulty_level with
          | .BEGINNER => .INTERMEDIATE
          | .INTERMEDIATE => .ADVANCED
          | .ADVANCED => .EXPERT
          | .EXPERT => .EXPERT)
      else if st > 120 ∨ er > 3/10 then DifficultyLevel.BEGINNER
      else s.difficulty_level) ∧
    (st > 120 ∨ er > 3/10 → ¬ (st < 30 ∧ er < 1/10) →
      (s.update_profile r).time_to_solve = [] ∧
        (s.update_profile r).error_rates = []) := by
  rw [LearningState.update_profile, hst, her]
  simp only [Option.getD_some]
  rw [LearningState.adjust_difficulty]
  simp only [List.getLast?_concat, Option.getD_some, List.append_eq_nil,
    List.cons_ne_self, and_false, or_self, if_false]
  split_ifs with h1 h2
  · refine ⟨?_, ?_⟩
    · cases s.difficulty_level <;> rfl
    · intro _ hgood
      exact absurd h1 hgood
  · exact ⟨rfl, fun _ _ => ⟨rfl, rfl⟩⟩
  · refine ⟨rfl, ?_⟩
    intro hbad _
    exact absurd hbad h2

/-- Witness for claim C1: a fast accurate result on a fresh BEGINNER state
advances the difficulty to INTERMEDIATE. -/
theorem claim_C1_witness :
    (LearningState.update_profile ⟨DifficultyLevel.BEGINNER, [], [], []⟩
      ⟨some 20, some (1/20), none⟩).difficulty_level =
      DifficultyLevel.INTERMEDIATE := by
  have h := claim_C1 ⟨DifficultyLevel.BEGINNER, [], [], []⟩
    ⟨some 20, some (1/20), none⟩ 20 (1/20) rfl rfl
  rw [h.1]
  norm_num
theorem to_decimal_zero : CognitiveBaseConverter.to_decimal "0" 2 = .ok 0 := by
  simp [CognitiveBaseConverter.to_decimal, splitDot, parseDigitsLSF,
    parseFracDigits, intDigit, charDigitValue]

theorem from_decimal_zero : CognitiveBaseConverter.from_decimal 0 3 = "0" := by
  simp [CognitiveBaseConverter.from_decimal, pyInt, intDigitsLoop, fracDigitsLoop]

theorem convert_zero_eval :
    CognitiveBaseConverter.convert ⟨ConversionMode.STANDARD, 64, []⟩ "0" 2 3 =
      .ok ({ source_value := "0", source_base := 2, target_base := 3,
             decimal_intermediate := 0, target_representation := "0",
             cognitive_complexity :=
               CognitiveBaseConverter.calculate_complexity 2 3 ((0 : ℚ) : ℝ) },
           ⟨ConversionMode.STANDARD, 64,
            [{ source_value := "0", source_base := 2, target_base := 3,
               decimal_intermediate := 0, target_representation := "0",
               cognitive_complexity :=
                 CognitiveBaseConverter.calculate_complexity 2 3 ((0 : ℚ) : ℝ) }]⟩) := by
  rw [CognitiveBaseConverter.convert,
    show CognitiveBaseConverter.validate_bases 2 3 = .ok () by
      simp [CognitiveBaseConverter.validate_bases],
    to_decimal_zero]
  simp only [from_decimal_zero]
  norm_num

/-- Claim C4 (amended): a successful convert returns its metadata record and
changes nothing about the converter except that, in STANDARD and EDUCATIONAL
modes, the metadata record is appended to the conversion history; only in
PERFORMANCE mode is the converter left entirely unchanged. -/
theorem claim_C4 (c : CognitiveBaseConverter) (value : String) (s t : Nat)
    (md : ConversionMetadata) (c2 : CognitiveBaseConverter)
    (h : c.convert value s t = .ok (md, c2)) :
    c2.mode = c.mode ∧ c2.max_bit_width = c.max_bit_width ∧
    c2.conversion_history =
      (if c.mode = ConversionMode.PERFORMANCE then c.conversion_history
       else c.conversion_history ++ [md]) := by
  rw [CognitiveBaseConverter.convert] at h
  cases hv : CognitiveBaseConverter.validate_bases s t with
  | error e => rw [hv] at h; exact absurd h (by simp)
  | ok u =>
    rw [hv] at h
    cases hd : CognitiveBaseConverter.to_decimal value s with
    | error e => rw [hd] at h; exact absurd h (by simp)
    | ok q =>
      rw [hd] at h
      simp only [Except.ok.injEq, Prod.mk.injEq] at h
      obtain ⟨hmd, hc2⟩ := h
      subst hmd
      subst hc2
      cases hm : c.mode <;> simp [hm]

/-- Witness for claim C4: converting 0 from base 2 to base 3 on a STANDARD
converter with empty history succeeds and appends exactly the returned
metadata record. -/
theorem claim_C4_witness :
    (match CognitiveBaseConverter.convert ⟨ConversionMode.STANDARD, 64, []⟩ "0" 2 3 with
     | .ok (md, c2) =>
        c2.conversion_history = [md] ∧ c2.mode = ConversionMode.STANDARD
     | .error _ => False) := by
  have hc := claim_C4 ⟨ConversionMode.STANDARD, 64, []⟩ "0" 2 3 _ _ convert_zero_eval
  rw [convert_zero_eval]
  exact ⟨by simpa using hc.2.2, hc.1⟩

/-- Claim C4 counterexample: on the default STANDARD mode a convert call does
have a side effect: it grows the conversion history, here from length 0 to
length 1. -/
theorem claim_C4_counterexample :
    ((CognitiveBaseConverter.convert ⟨ConversionMode.STANDARD, 64, []⟩ "0" 2 3).toOption.map
      (fun p => p.2.conversion_history.length)) ≠
      some (List.length ([] : List ConversionMetadata)) := by
  rw [convert_zero_eval]
  simp [Except.toOption]

theorem roundHalfToEven_bounds (x : ℚ) :
    ⌊x⌋ ≤ roundHalfToEven x ∧ roundHalfToEven x ≤ ⌊x⌋ + 1 := by
  rw [roundHalfToEven]
  split_ifs <;> omega

theorem pyRound3_bounds (q : ℚ) (h0 : 0 ≤ q) (h1 : q < 1) :
    0 ≤ pyRound3 q ∧ pyRound3 q ≤ 1 := by
  obtain ⟨hl, hr⟩ := roundHalfToEven_bounds (q * 1000)
  have hf0 : (0 : ℤ) ≤ ⌊q * 1000⌋ := Int.floor_nonneg.mpr (by positivity)
  have hf1 : ⌊q * 1000⌋ < 1000 := by
    rw [Int.floor_lt]
    push_cast
    nlinarith
  have hge : (0 : ℤ) ≤ roundHalfToEven (q * 1000) := le_trans hf0 hl
  have hle : roundHalfToEven (q * 1000) ≤ 1000 := by omega
  rw [pyRound3]
  constructor
  · apply div_nonneg _ (by norm_num)
    exact_mod_cast hge
  · rw [div_le_one (by norm_num)]
    exact_mod_cast hle

theorem calculate_challenge_complexity_mem_Icc (s t : Nat) (h2 : 2 ≤ max s t)
    (v : ℝ) :
    0 ≤ AdaptiveLearningPathway.calculate_challenge_complexity s t v ∧
      AdaptiveLearningPathway.calculate_challenge_complexity s t v ≤ 10 :=
  calculate_complexity_mem_Icc s t h2 v

/-- Claim C8 (amended): for in-contract random draws, the generated challenge
has both bases in the level's base range (hence in [2,36]), is labeled with
the level's name, has a nonnegative value whose fractional part is in [0,1)
and whose integer part is between 0 and the level's maximum value plus one --
it stays within the level's value range except that rounding the 3-decimal
fractional draw can carry one past the maximum -- and has a complexity score
in [0,10]. -/
theorem claim_C8 (p : AdaptiveLearningPathway) (d : RandomDraws)
    (h : d.inRange p.learning_state.difficulty_level) :
    ((baseComplexityMap p.learning_state.difficulty_level).1 ≤
        (p.generate_challenge d).source_base ∧
      (p.generate_challenge d).source_base ≤
        (baseComplexityMap p.learning_state.difficulty_level).2 ∧
      (baseComplexityMap p.learning_state.difficulty_level).1 ≤
        (p.generate_challenge d).target_base ∧
      (p.generate_challenge d).target_base ≤
        (baseComplexityMap p.learning_state.difficulty_level).2 ∧
      2 ≤ (p.generate_challenge d).source_base ∧
      (p.generate_challenge d).source_base ≤ 36 ∧
      2 ≤ (p.generate_challenge d).target_base ∧
      (p.generate_challenge d).target_base ≤ 36) ∧
    (p.generate_challenge d).difficulty_level =
      p.learning_state.difficulty_level.name ∧
    (0 ≤ (p.generate_challenge d).value ∧
      0 ≤ pyInt (p.generate_challenge d).value ∧
      pyInt (p.generate_challenge d).value ≤
        ((valueComplexityMap p.learning_state.difficulty_level).2 : ℤ) + 1 ∧
      (pyRound3 d.fractionalDraw < 1 →
        pyInt (p.generate_challenge d).value ≤
          ((valueComplexityMap p.learning_state.difficulty_level).2 : ℤ)) ∧
      0 ≤ (p.generate_challenge d).value - (⌊(p.generate_challenge d).value⌋ : ℚ) ∧
      (p.generate_challenge d).value - (⌊(p.generate_challenge d).value⌋ : ℚ) < 1) ∧
    (0 ≤ (p.generate_challenge d).cognitive_complexity ∧
      (p.generate_challenge d).cognitive_complexity ≤ 10) := by
  obtain ⟨hsb1, hsb2, htb1, htb2, hc0, hc1, hv1, hv2, hf0, hf1⟩ := h
  have hbase2 : 2 ≤ (baseComplexityMap p.learning_state.difficulty_level).1 ∧
      (baseComplexityMap p.learning_state.difficulty_level).2 ≤ 36 := by
    cases p.learning_state.difficulty_level <;> simp [baseComplexityMap]
  have hrange : 2 ≤ (p.generate_challenge d).source_base ∧
      (p.generate_challenge d).source_base ≤ 36 ∧
      2 ≤ (p.generate_challenge d).target_base ∧
      (p.generate_challenge d).target_base ≤ 36 := by
    simp only [AdaptiveLearningPathway.generate_challenge]
    exact ⟨le_trans hbase2.1 hsb1, le_trans hsb2 hbase2.2,
      le_trans hbase2.1 htb1, le_trans htb2 hbase2.2⟩
  have hvalue : 0 ≤ (p.generate_challenge d).value ∧
      (p.generate_challenge d).value ≤ ((d.integerDraw : ℚ) + 1) ∧
      (pyRound3 d.fractionalDraw < 1 →
        (p.generate_challenge d).value < (d.integerDraw : ℚ) + 1) := by
    simp only [AdaptiveLearningPathway.generate_challenge]
    obtain ⟨hr0, hr1⟩ := pyRound3_bounds d.fractionalDraw hf0 hf1
    split_ifs with hfr
    · refine ⟨by positivity, by linarith, fun hlt => by linarith⟩
    · refine ⟨by positivity, by linarith, fun hlt => by linarith⟩
  have hfloor0 : 0 ≤ ⌊(p.generate_challenge d).value⌋ :=
    Int.floor_nonneg.mpr hvalue.1
  have hfloor1 : ⌊(p.generate_challenge d).value⌋ ≤ (d.integerDraw : ℤ) + 1 := by
    have := Int.floor_le_floor hvalue.2.1
    simpa using this
  have hpy : pyInt (p.generate_challenge d).value = ⌊(p.generate_challenge d).value⌋ := by
    rw [pyInt, if_pos hvalue.1]
  refine ⟨⟨hsb1, hsb2, htb1, htb2, hrange.1, hrange.2.1, hrange.2.2.1, hrange.2.2.2⟩,
    ?_, ⟨hvalue.1, ?_, ?_, ?_, ?_, ?_⟩, ?_⟩
  · simp [AdaptiveLearningPathway.generate_challenge]
  · rw [hpy]; exact hfloor0
  · rw [hpy]
    have : (d.integerDraw : ℤ) ≤ ((valueComplexityMap p.learning_state.difficulty_level).2 : ℤ) := by
      exact_mod_cast hv2
    omega
  · intro hlt
    rw [hpy]
    have hfl : ⌊(p.generate_challenge d).value⌋ < (d.integerDraw : ℤ) + 1 := by
      rw [Int.floor_lt]
      push_cast
      exact hvalue.2.2 hlt
    have : (d.integerDraw : ℤ) ≤ ((valueComplexityMap p.learning_state.difficulty_level).2 : ℤ) := by
      exact_mod_cast hv2
    omega
  · rw [Int.self_sub_floor]
    exact Int.fract_nonneg _
  · rw [Int.self_sub_floor]
    exact Int.fract_lt_one _
  · have h2max : 2 ≤ max (p.generate_challenge d).source_base
        (p.generate_challenge d).target_base :=
      le_max_of_le_left hrange.1
    have := calculate_challenge_complexity_mem_Icc
      (p.generate_challenge d).source_base (p.generate_challenge d).target_base
      h2max ((p.generate_challenge d).value : ℝ)
    simpa [AdaptiveLearningPathway.generate_challenge] using this
/-- Witness for claim C8 at an EXPERT pathway with concrete in-range draws. -/
theorem claim_C8_witness :
    (AdaptiveLearningPathway.generate_challenge expertPathway expertDraws).difficulty_level =
        "EXPERT" ∧
    2 ≤ (AdaptiveLearningPathway.generate_challenge expertPathway expertDraws).source_base ∧
    (AdaptiveLearningPathway.generate_challenge expertPathway expertDraws).source_base ≤ 36 ∧
    0 ≤ pyInt (AdaptiveLearningPathway.generate_challenge expertPathway expertDraws).value ∧
    pyInt (AdaptiveLearningPathway.generate_challenge expertPathway expertDraws).value ≤
      (1000000 : ℤ) + 1 := by
  have h := claim_C8 expertPathway expertDraws
    (by norm_num [RandomDraws.inRange, expertDraws, expertPathway,
      baseComplexityMap, valueComplexityMap])
  refine ⟨?_, h.1.2.2.2.2.1, h.1.2.2.2.2.2.1, h.2.2.1.2.1, ?_⟩
  · have := h.2.1
    simpa [expertPathway, DifficultyLevel.name] using this
  · have := h.2.2.1.2.2.1
    simpa [expertPathway, valueComplexityMap] using this

/-- Claim C8 counterexample: at EXPERT, with in-contract draws whose
fractional draw is 0.9996, the rounded fractional part is a full 1.0 and the
generated value's integer part is 1000001, one above the level's value
range. -/
theorem claim_C8_counterexample :
    carryDraws.inRange DifficultyLevel.EXPERT ∧
    (expertPathway.learning_state.difficulty_level = DifficultyLevel.EXPERT) ∧
    ¬ (pyInt (AdaptiveLearningPathway.generate_challenge expertPathway carryDraws).value ≤
        (1000000 : ℤ)) := by
  refine ⟨by norm_num [RandomDraws.inRange, carryDraws, baseComplexityMap,
    valueComplexityMap], rfl, ?_⟩
  have hval : (AdaptiveLearningPathway.generate_challenge expertPathway carryDraws).value =
      1000001 := by
    have h1 : ((2499 : ℚ)/2500 * 1000) = 4998/5 := by norm_num
    have h2 : ⌊(4998/5 : ℚ)⌋ = (999 : ℤ) := by
      rw [Int.floor_eq_iff] <;> norm_num
    have hround : pyRound3 (2499/2500 : ℚ) = 1 := by
      rw [pyRound3, h1, roundHalfToEven, h2]
      norm_num
    simp [AdaptiveLearningPathway.generate_challenge, expertPathway, carryDraws, hround]
    norm_num
  rw [hval]
  rw [show pyInt 1000001 = 1000001 by rw [pyInt]; norm_num]
  norm_num
theorem intDigit_ok_iff (base : Nat) (c : Char) :
    (∃ d, intDigit base c = .ok d) ↔ validDigit base c := by
  rw [intDigit, validDigit]
  cases h : charDigitValue c with
  | none => simp
  | some d =>
    simp only []
    split_ifs with hd <;> simp_all

theorem intDigit_error_shape (base : Nat) (c : Char) (e : ConvError)
    (h : intDigit base c = .error e) : e = ConvError.digitOutOfRange c base := by
  rw [intDigit] at h
  cases hc : charDigitValue c with
  | none =>
    rw [hc] at h
    simp only [] at h
    exact (Except.error.inj h).symm
  | some d =>
    rw [hc] at h
    simp only [] at h
    split_ifs at h with hd
    all_goals
      first
        | exact (Except.error.inj h).symm
        | cases h

theorem parseDigitsLSF_ok_iff (base : Nat) (cs : List Char) :
    ∀ pow : Nat,
      (∃ n, parseDigitsLSF base cs pow = .ok n) ↔ ∀ c ∈ cs, validDigit base c := by
  induction cs with
  | nil => intro pow; simp [parseDigitsLSF]
  | cons c cs ih =>
    intro pow
    rw [parseDigitsLSF]
    cases hd : intDigit base c with
    | error e =>
      simp only [List.mem_cons]
      constructor
      · rintro ⟨n, hn⟩
        cases hn
      · intro hall
        obtain ⟨d, hcd, hdb⟩ := hall c (Or.inl rfl)
        rw [intDigit, hcd] at hd
        simp only [] at hd
        rw [if_pos hdb] at hd
        cases hd
    | ok d =>
      cases hp : parseDigitsLSF base cs (pow + 1) with
      | error e =>
        constructor
        · rintro ⟨n, hn⟩
          cases hn
        · intro hall
          obtain ⟨n, hn⟩ := (ih (pow + 1)).mpr
            (fun x hx => hall x (List.mem_cons_of_mem _ hx))
          rw [hn] at hp
          cases hp
      | ok n =>
        constructor
        · intro _
          intro x hx
          rcases List.mem_cons.mp hx with hx | hx
          · subst hx
            exact (intDigit_ok_iff base x).mp ⟨d, hd⟩
          · exact (ih (pow + 1)).mp ⟨n, hp⟩ x hx
        · intro _
          exact ⟨d * base ^ pow + n, rfl⟩

theorem parseDigitsLSF_error_shape (base : Nat) (cs : List Char) :
    ∀ (pow : Nat) (e : ConvError), parseDigitsLSF base cs pow = .error e →
      ∃ ch b2, e = ConvError.digitOutOfRange ch b2 := by
  induction cs with
  | nil => intro pow e h; cases h
  | cons c cs ih =>
    intro pow e h
    rw [parseDigitsLSF] at h
    cases hd : intDigit base c with
    | error e2 =>
      rw [hd] at h
      simp only [] at h
      obtain rfl := Except.error.inj h
      exact ⟨c, base, intDigit_error_shape base c e2 hd⟩
    | ok d =>
      rw [hd] at h
      cases hp : parseDigitsLSF base cs (pow + 1) with
      | error e2 =>
        rw [hp] at h
        simp only [] at h
        obtain rfl := Except.error.inj h
        exact ih (pow + 1) e2 hp
      | ok n =>
        rw [hp] at h
        cases h

theorem parseFracDigits_ok_iff (base : Nat) (cs : List Char) :
    ∀ pow : Nat,
      (∃ q, parseFracDigits base cs pow = .ok q) ↔ ∀ c ∈ cs, validDigit base c := by
  induction cs with
  | nil => intro pow; simp [parseFracDigits]
  | cons c cs ih =>
    intro pow
    rw [parseFracDigits]
    cases hd : intDigit base c with
    | error e =>
      simp only [List.mem_cons]
      constructor
      · rintro ⟨n, hn⟩
        cases hn
      · intro hall
        obtain ⟨d, hcd, hdb⟩ := hall c (Or.inl rfl)
        rw [intDigit, hcd] at hd
        simp only [] at hd
        rw [if_pos hdb] at hd
        cases hd
    | ok d =>
      cases hp : parseFracDigits base cs (pow + 1) with
      | error e =>
        constructor
        · rintro ⟨n, hn⟩
          cases hn
        · intro hall
          obtain ⟨n, hn⟩ := (ih (pow + 1)).mpr
            (fun x hx => hall x (List.mem_cons_of_mem _ hx))
          rw [hn] at hp
          cases hp
      | ok n =>
        constructor
        · intro _
          intro x hx
          rcases List.mem_cons.mp hx with hx | hx
          · subst hx
            exact (intDigit_ok_iff base x).mp ⟨d, hd⟩
          · exact (ih (pow + 1)).mp ⟨n, hp⟩ x hx
        · intro _
          exact ⟨(d : ℚ) * ((base : ℚ) ^ (pow + 1))⁻¹ + n, rfl⟩

theorem parseFracDigits_error_shape (base : Nat) (cs : List Char) :
    ∀ (pow : Nat) (e : ConvError), parseFracDigits base cs pow = .error e →
      ∃ ch b2, e = ConvError.digitOutOfRange ch b2 := by
  induction cs with
  | nil => intro pow e h; cases h
  | cons c cs ih =>
    intro pow e h
    rw [parseFracDigits] at h
    cases hd : intDigit base c with
    | error e2 =>
      rw [hd] at h
      simp only [] at h
      obtain rfl := Except.error.inj h
      exact ⟨c, base, intDigit_error_shape base c e2 hd⟩
    | ok d =>
      rw [hd] at h
      cases hp : parseFracDigits base cs (pow + 1) with
      | error e2 =>
        rw [hp] at h
        simp only [] at h
        obtain rfl := Except.error.inj h
        exact ih (pow + 1) e2 hp
      | ok n =>
        rw [hp] at h
        cases h

theorem to_decimal_ok_iff (strValue : String) (base : Nat) :
    (∃ q, CognitiveBaseConverter.to_decimal strValue base = .ok q) ↔
      ∀ c ∈ (splitDot strValue.data).headD [] ++
          ((splitDot strValue.data).drop 1).headD [], validDigit base c := by
  rw [CognitiveBaseConverter.to_decimal]
  simp only [List.mem_append, or_imp, forall_and]
  cases hI : parseDigitsLSF base ((splitDot strValue.data).headD []).reverse 0 with
  | error e =>
    constructor
    · rintro ⟨q, hq⟩
      cases hq
    · rintro ⟨hint, _⟩
      obtain ⟨n, hn⟩ := (parseDigitsLSF_ok_iff base _ 0).mpr
        (fun x hx => hint x (List.mem_reverse.mp hx))
      rw [hn] at hI
      cases hI
  | ok n =>
    cases hF : parseFracDigits base (((splitDot strValue.data).drop 1).headD []) 0 with
    | error e =>
      constructor
      · rintro ⟨q, hq⟩
        cases hq
      · rintro ⟨_, hfrac⟩
        obtain ⟨q, hq⟩ := (parseFracDigits_ok_iff base _ 0).mpr hfrac
        rw [hq] at hF
        cases hF
    | ok f =>
      constructor
      · intro _
        refine ⟨?_, ?_⟩
        · intro x hx
          exact (parseDigitsLSF_ok_iff base _ 0).mp ⟨n, hI⟩ x (List.mem_reverse.mpr hx)
        · exact (parseFracDigits_ok_iff base _ 0).mp ⟨f, hF⟩
      · intro _
        exact ⟨(n : ℚ) + f, rfl⟩

theorem to_decimal_error_shape (strValue : String) (base : Nat) (e : ConvError)
    (h : CognitiveBaseConverter.to_decimal strValue base = .error e) :
    ∃ ch b2, e = ConvError.digitOutOfRange ch b2 := by
  rw [CognitiveBaseConverter.to_decimal] at h
  cases hI : parseDigitsLSF base ((splitDot strValue.data).headD []).reverse 0 with
  | error e2 =>
    rw [hI] at h
    simp only [] at h
    obtain rfl := Except.error.inj h
    exact parseDigitsLSF_error_shape base _ 0 e2 hI
  | ok n =>
    rw [hI] at h
    cases hF : parseFracDigits base (((splitDot strValue.data).drop 1).headD []) 0 with
    | error e2 =>
      rw [hF] at h
      simp only [] at h
      obtain rfl := Except.error.inj h
      exact parseFracDigits_error_shape base _ 0 e2 hF
    | ok f =>
      rw [hF] at h
      cases h

/-- Claim C6: parsing a value in a base of [2,36] succeeds exactly when every
character of the integer and fractional parts is a digit with value below the
base; any parse failure is a digit-out-of-range error naming a violating
character. -/
theorem claim_C6 (strValue : String) (base : Nat) (h2 : 2 ≤ base)
    (h36 : base ≤ 36) :
    ((∃ q, CognitiveBaseConverter.to_decimal strValue base = .ok q) ↔
      ∀ c ∈ (splitDot strValue.data).headD [] ++
          ((splitDot strValue.data).drop 1).headD [], validDigit base c) ∧
    (∀ e, CognitiveBaseConverter.to_decimal strValue base = .error e →
      ∃ ch b2, e = ConvError.digitOutOfRange ch b2) :=
  ⟨to_decimal_ok_iff strValue base, fun e he => to_decimal_error_shape strValue base e he⟩

/-- Witness for claim C6 at the concrete value 1A.F in base 16. -/
theorem claim_C6_witness :
    ((∃ q, CognitiveBaseConverter.to_decimal "1A.F" 16 = .ok q) ↔
      ∀ c ∈ (splitDot "1A.F".data).headD [] ++
          ((splitDot "1A.F".data).drop 1).headD [], validDigit 16 c) ∧
    (∀ e, CognitiveBaseConverter.to_decimal "1A.F" 16 = .error e →
      ∃ ch b2, e = ConvError.digitOutOfRange ch b2) :=
  claim_C6 "1A.F" 16 (by norm_num) (by norm_num)
theorem digitChar_ne (d : Nat) : digitChar d ≠ '.' ∧ digitChar d ≠ '-' := by
  by_cases h : d < 36
  · have hall : ∀ d2, d2 < 36 → digitChar d2 ≠ '.' ∧ digitChar d2 ≠ '-' := by decide
    exact hall d h
  · rw [digitChar, List.getD_eq_default]
    · decide
    · have hlen : digitsAlphabet.length = 36 := by decide
      omega

theorem mem_intDigitsLoop (base : Nat) :
    ∀ n, ∀ c ∈ intDigitsLoop base n, ∃ d, c = digitChar d := by
  intro n
  induction n using Nat.strong_induction_on with
  | _ n ih =>
    intro c hc
    rw [intDigitsLoop] at hc
    split_ifs at hc with h
    · rcases List.mem_append.mp hc with h1 | h1
      · exact ih (n / base) (Nat.div_lt_self h.1 h.2) c h1
      · simp only [List.mem_singleton] at h1
        exact ⟨n % base, h1⟩
    · simp at hc

theorem mem_fracDigitsLoop (base : Nat) :
    ∀ (fuel : Nat) (f : ℚ), ∀ c ∈ fracDigitsLoop base fuel f, ∃ d, c = digitChar d := by
  intro fuel
  induction fuel with
  | zero => intro f c hc; simp [fracDigitsLoop] at hc
  | succ fuel ih =>
    intro f c hc
    rw [fracDigitsLoop] at hc
    split_ifs at hc with h
    · simp only [List.mem_cons] at hc
      rcases hc with hc | hc
      · exact ⟨_, hc⟩
      · exact ih _ c hc
    · simp at hc

theorem from_decimal_no_sign (q : ℚ) (b : Nat) :
    '-' ∉ (CognitiveBaseConverter.from_decimal q b).data := by
  rw [CognitiveBaseConverter.from_decimal]
  intro hmem
  simp only [] at hmem
  have hin : ∀ c ∈ (if intDigitsLoop b (pyInt q).toNat = [] then ['0']
      else intDigitsLoop b (pyInt q).toNat), c ≠ '-' := by
    split_ifs with h0
    · decide
    · intro c hc
      obtain ⟨d, rfl⟩ := mem_intDigitsLoop b _ c hc
      exact (digitChar_ne d).2
  by_cases hf : fracDigitsLoop b 10 (q - ((pyInt q) : ℚ)) = []
  · rw [if_pos hf] at hmem
    exact hin '-' hmem rfl
  · rw [if_neg hf] at hmem
    rcases List.mem_append.mp hmem with h1 | h1
    · exact hin '-' h1 rfl
    · rcases List.mem_cons.mp h1 with h1 | h1
      · cases h1
      · obtain ⟨d, hd⟩ := mem_fracDigitsLoop b 10 _ '-' h1
        exact (digitChar_ne d).2 hd.symm

theorem splitDot_cons_head (c : Char) (cs : List Char) (h : ¬ c = '.') :
    ∃ p, (splitDot (c :: cs)).headD [] = c :: p := by
  rw [splitDot]
  rw [if_neg h]
  cases hs : splitDot cs with
  | nil => exact ⟨[], rfl⟩
  | cons p ps => exact ⟨p, rfl⟩

/-- Claim C10: with valid bases, converting any textual value that begins with
a minus sign fails during digit parsing with a digit-out-of-range error (the
sign is not in the digit alphabet), and no rendered representation ever
contains a minus sign. -/
theorem claim_C10 (c : CognitiveBaseConverter) (rest : List Char) (s t : Nat)
    (hs2 : 2 ≤ s) (hs36 : s ≤ 36) (ht2 : 2 ≤ t) (ht36 : t ≤ 36) :
    (∃ ch b2, c.convert (String.mk ('-' :: rest)) s t =
      .error (ConvError.digitOutOfRange ch b2)) ∧
    (∀ (q : ℚ) (b2 : Nat), '-' ∉ (CognitiveBaseConverter.from_decimal q b2).data) := by
  refine ⟨?_, fun q b2 => from_decimal_no_sign q b2⟩
  have hdata : (String.mk ('-' :: rest)).data = '-' :: rest := rfl
  obtain ⟨p, hp⟩ := splitDot_cons_head '-' rest (by decide)
  have hnv : ¬ validDigit s '-' := by
    rintro ⟨d, hd, _⟩
    have : charDigitValue '-' = none := by decide
    rw [this] at hd
    cases hd
  have hnall : ¬ ∀ x ∈ (splitDot (String.mk ('-' :: rest)).data).headD [] ++
      ((splitDot (String.mk ('-' :: rest)).data).drop 1).headD [], validDigit s x := by
    intro hall
    refine hnv (hall '-' (List.mem_append_left _ ?_))
    rw [hdata, hp]
    exact List.mem_cons_self _ _
  cases hres : CognitiveBaseConverter.to_decimal (String.mk ('-' :: rest)) s with
  | ok q =>
    exact absurd ((to_decimal_ok_iff _ s).mp ⟨q, hres⟩) hnall
  | error e =>
    obtain ⟨ch, b2, he⟩ := to_decimal_error_shape _ s e hres
    refine ⟨ch, b2, ?_⟩
    rw [CognitiveBaseConverter.convert, CognitiveBaseConverter.validate_bases,
      if_pos ⟨hs2, hs36, ht2, ht36⟩, hres, he]

/-- Witness for claim C10 at the concrete negative value -5 between bases 10
and 16. -/
theorem claim_C10_witness :
    (∃ ch b2, CognitiveBaseConverter.convert ⟨ConversionMode.STANDARD, 64, []⟩
      (String.mk ('-' :: ['5'])) 10 16 = .error (ConvError.digitOutOfRange ch b2)) ∧
    (∀ (q : ℚ) (b2 : Nat), '-' ∉ (CognitiveBaseConverter.from_decimal q b2).data) :=
  claim_C10 ⟨ConversionMode.STANDARD, 64, []⟩ ['5'] 10 16
    (by norm_num) (by norm_num) (by norm_num) (by norm_num)
theorem charDigitValue_digitChar :
    ∀ d, d < 36 → charDigitValue (digitChar d) = some d := by decide

theorem intDigit_digitChar (b d : Nat) (hb : b ≤ 36) (hd : d < b) :
    intDigit b (digitChar d) = .ok d := by
  rw [intDigit, charDigitValue_digitChar d (lt_of_lt_of_le hd hb)]
  simp only []
  rw [if_pos hd]

theorem parse_intDigitsLoop (b : Nat) (hb2 : 2 ≤ b) (hb36 : b ≤ 36) :
    ∀ n pow, parseDigitsLSF b (intDigitsLoop b n).reverse pow = .ok (n * b ^ pow) := by
  intro n
  induction n using Nat.strong_induction_on with
  | _ n ih =>
    intro pow
    rw [intDigitsLoop]
    split_ifs with h
    · rw [List.reverse_append, List.reverse_singleton, List.singleton_append,
        parseDigitsLSF,
        intDigit_digitChar b (n % b) hb36 (Nat.mod_lt n (by omega)),
        ih (n / b) (Nat.div_lt_self h.1 h.2) (pow + 1)]
      simp only []
      have harith : n % b * b ^ pow + n / b * b ^ (pow + 1) = n * b ^ pow := by
        conv_rhs => rw [← Nat.mod_add_div' n b]
        rw [pow_succ]
        ring
      rw [harith]
    · have hn : n = 0 := by omega
      subst hn
      simp [parseDigitsLSF]

theorem splitDot_no_dot (cs : List Char) (h : '.' ∉ cs) : splitDot cs = [cs] := by
  induction cs with
  | nil => rfl
  | cons c cs ih =>
    rw [splitDot]
    have hc : ¬ c = '.' := fun hcc => h (hcc ▸ List.mem_cons_self c cs)
    rw [if_neg hc, ih (fun hm => h (List.mem_cons_of_mem c hm))]

theorem no_dot_intDigitsLoop (b n : Nat) : '.' ∉ intDigitsLoop b n := by
  intro hm
  obtain ⟨d, hd⟩ := mem_intDigitsLoop b n '.' hm
  exact (digitChar_ne d).1 hd.symm

theorem pyInt_natCast (n : Nat) : pyInt (n : ℚ) = (n : ℤ) := by
  rw [pyInt, if_pos (by positivity)]
  exact Int.floor_natCast n

theorem fracDigitsLoop_nonpos (b : Nat) (fuel : Nat) (f : ℚ) (hf : ¬ 0 < f) :
    fracDigitsLoop b fuel f = [] := by
  cases fuel with
  | zero => rfl
  | succ fuel => rw [fracDigitsLoop, if_neg hf]

theorem from_decimal_natCast (n b : Nat) :
    CognitiveBaseConverter.from_decimal (n : ℚ) b =
      String.mk (if intDigitsLoop b n = [] then ['0'] else intDigitsLoop b n) := by
  rw [CognitiveBaseConverter.from_decimal]
  simp only [pyInt_natCast, Int.cast_natCast, sub_self, Int.toNat_natCast]
  rw [fracDigitsLoop_nonpos b 10 0 (by norm_num)]
  simp

theorem intDigitsLoop_eq_nil_iff (b n : Nat) (hb2 : 2 ≤ b) :
    intDigitsLoop b n = [] ↔ n = 0 := by
  constructor
  · intro h
    by_contra hne
    rw [intDigitsLoop, dif_pos ⟨Nat.pos_of_ne_zero hne, hb2⟩] at h
    simp at h
  · intro h
    subst h
    rw [intDigitsLoop]
    simp

theorem to_decimal_from_decimal (n b : Nat) (hb2 : 2 ≤ b) (hb36 : b ≤ 36) :
    CognitiveBaseConverter.to_decimal
      (CognitiveBaseConverter.from_decimal (n : ℚ) b) b = .ok (n : ℚ) := by
  rw [from_decimal_natCast]
  by_cases h0 : intDigitsLoop b n = []
  · have hn : n = 0 := (intDigitsLoop_eq_nil_iff b n hb2).mp h0
    subst hn
    rw [if_pos h0]
    have hb0 : 0 < b := by omega
    rw [CognitiveBaseConverter.to_decimal]
    have hdata : (String.mk ['0']).data = ['0'] := rfl
    rw [hdata, splitDot_no_dot ['0'] (by decide)]
    simp only [List.headD_cons, List.drop_succ_cons, List.drop_nil, List.headD_nil,
      List.reverse_singleton]
    have hc0 : charDigitValue '0' = some 0 := by decide
    simp [parseDigitsLSF, parseFracDigits, intDigit, hc0, hb0]
  · rw [if_neg h0]
    have hdata : (String.mk (intDigitsLoop b n)).data = intDigitsLoop b n := rfl
    rw [CognitiveBaseConverter.to_decimal]
    rw [hdata, splitDot_no_dot _ (no_dot_intDigitsLoop b n)]
    simp only [List.headD_cons, List.drop_succ_cons, List.drop_nil, List.headD_nil]
    rw [parse_intDigitsLoop b hb2 hb36 n 0]
    simp only [parseFracDigits]
    norm_num

theorem convert_ok_of_to_decimal (c : CognitiveBaseConverter) (value : String)
    (s t : Nat) (hs2 : 2 ≤ s) (hs36 : s ≤ 36) (ht2 : 2 ≤ t) (ht36 : t ≤ 36)
    (q : ℚ) (hq : CognitiveBaseConverter.to_decimal value s = .ok q) :
    ∃ c2, c.convert value s t =
      .ok ({ source_value := value, source_base := s, target_base := t,
             decimal_intermediate := q,
             target_representation := CognitiveBaseConverter.from_decimal q t,
             cognitive_complexity :=
               CognitiveBaseConverter.calculate_complexity s t (q : ℝ) }, c2) := by
  rw [CognitiveBaseConverter.convert, CognitiveBaseConverter.validate_bases,
    if_pos ⟨hs2, hs36, ht2, ht36⟩, hq]
  exact ⟨_, rfl⟩

/-- Claim C2: for any base b in [2,36] and any natural number v (the engine's
float intermediate is exact on such inputs), converting the decimal numeral of
v to base b and converting the resulting representation back to base 10
renders the decimal numeral of v again. -/
theorem claim_C2 (c : CognitiveBaseConverter) (v b : Nat) (hb2 : 2 ≤ b)
    (hb36 : b ≤ 36) :
    ∃ md1 c1 md2 c2,
      c.convert (decString v) 10 b = .ok (md1, c1) ∧
      c1.convert md1.target_representation b 10 = .ok (md2, c2) ∧
      md2.target_representation = decString v := by
  have h1 : CognitiveBaseConverter.to_decimal (decString v) 10 = .ok (v : ℚ) :=
    to_decimal_from_decimal v 10 (by norm_num) (by norm_num)
  obtain ⟨c1, hc1⟩ := convert_ok_of_to_decimal c (decString v) 10 b
    (by norm_num) (by norm_num) hb2 hb36 (v : ℚ) h1
  have h2 : CognitiveBaseConverter.to_decimal
      (CognitiveBaseConverter.from_decimal (v : ℚ) b) b = .ok (v : ℚ) :=
    to_decimal_from_decimal v b hb2 hb36
  obtain ⟨c2, hc2⟩ := convert_ok_of_to_decimal c1
    (CognitiveBaseConverter.from_decimal (v : ℚ) b) b 10 hb2 hb36
    (by norm_num) (by norm_num) (v : ℚ) h2
  exact ⟨_, c1, _, c2, hc1, hc2, rfl⟩

/-- Witness for claim C2 at v = 255 and b = 16. -/
theorem claim_C2_witness :
    ∃ md1 c1 md2 c2,
      CognitiveBaseConverter.convert ⟨ConversionMode.STANDARD, 64, []⟩
        (decString 255) 10 16 = .ok (md1, c1) ∧
      c1.convert md1.target_representation 16 10 = .ok (md2, c2) ∧
      md2.target_representation = decString 255 :=
  claim_C2 ⟨ConversionMode.STANDARD, 64, []⟩ 255 16 (by norm_num) (by norm_num)
theorem convert_number_eval : convert_number "255" 10 16 = .ok "FF" := by
  have ht : CognitiveBaseConverter.to_decimal "255" 10 = .ok 255 := by
    simp [CognitiveBaseConverter.to_decimal, parseDigitsLSF, parseFracDigits,
      intDigit, charDigitValue, splitDot]
  have hf : CognitiveBaseConverter.from_decimal 255 16 = "FF" := by
    simp [CognitiveBaseConverter.from_decimal, intDigitsLoop, pyInt, fracDigitsLoop]
    decide
  rw [convert_number, CognitiveBaseConverter.validate_bases,
    if_pos (by norm_num), ht]
  simp only []
  rw [hf]

/-- Claim C5: a successful evaluation computes the correct answer by
converting the challenge's value between its bases and grades by exact
case-sensitive string equality, returning error rate 0 exactly on a match and
1 otherwise. -/
theorem claim_C5 (value : String) (source_base target_base : Nat)
    (user_answer : String) (res : EvalResult)
    (h : AdaptiveLearningPathway.evaluate_answer value source_base target_base
      user_answer = .ok res) :
    ∃ correct_answer,
      convert_number value source_base target_base = .ok correct_answer ∧
      (res.is_correct = true ↔ user_answer = correct_answer) ∧
      res.error_rate = (if res.is_correct = true then 0 else 1) := by
  rw [AdaptiveLearningPathway.evaluate_answer] at h
  cases hc : convert_number value source_base target_base with
  | error e =>
    rw [hc] at h
    cases h
  | ok ca =>
    rw [hc] at h
    simp only [] at h
    obtain rfl := Except.ok.inj h
    refine ⟨ca, rfl, ?_, ?_⟩
    · exact decide_eq_true_iff
    · by_cases heq : user_answer = ca <;> simp [heq]

/-- Witness for claim C5: evaluating the correct answer FF for converting 255
from base 10 to base 16 is graded correct with error rate 0. -/
theorem claim_C5_witness :
    AdaptiveLearningPathway.evaluate_answer "255" 10 16 "FF" =
      .ok { is_correct := true, error_rate := 0 } ∧
    (∃ correct_answer,
      convert_number "255" 10 16 = .ok correct_answer ∧
      ((({ is_correct := true, error_rate := 0 } : EvalResult).is_correct = true) ↔
        "FF" = correct_answer) ∧
      ({ is_correct := true, error_rate := 0 } : EvalResult).error_rate =
        (if ({ is_correct := true, error_rate := 0 } : EvalResult).is_correct = true
         then 0 else 1)) := by
  have heval : AdaptiveLearningPathway.evaluate_answer "255" 10 16 "FF" =
      .ok { is_correct := true, error_rate := 0 } := by
    rw [AdaptiveLearningPathway.evaluate_answer, convert_number_eval]
    simp
  exact ⟨heval, claim_C5 "255" 10 16 "FF" _ heval⟩
